import Mathlib

/-
Shallow embedding of src/src/net/curl_shim.c.

The shim wraps libcurl. Machine details are modelled as follows:
- bytes are Nat (each a value 0..255 in practice; no arithmetic is done on them);
- a C memory block is a List Nat of its bytes; realloc(p, n) yields a block of
  exactly n bytes whose first min(old, n) bytes are the old ones (reallocations
  that fail are driven by an explicit Bool oracle where a claim concerns them);
- the engine (libcurl itself) is an oracle: curl_easy_perform is described by a
  PerformOracle giving the CURLcode it returns, the body chunks it pushes into
  the write callback (each paired with the success of that call's realloc), and
  the HTTP status it would report through curl_easy_getinfo;
- malloc(1) at the start of curl_shim_simple_request is modelled as returning a
  fresh one-byte block holding one uninitialized byte `junk` (the C code does
  not check this malloc for failure);
- a C string argument (url, method, payload) is the byte sequence the caller
  means to pass; strlen scans it up to the first zero byte, as in C;
- resource-lifecycle calls made by curl_shim_simple_request are recorded in an
  event trace so that release counts can be stated.
-/

namespace CurlShim

/-- CURLcode value CURLE_OK from curl.h. -/
def CURLE_OK : Nat := 0

/-- CURLcode value CURLE_FAILED_INIT from curl.h. -/
def CURLE_FAILED_INIT : Nat := 2

/-- The accumulator state, curl_shim.c lines 50-53:
`typedef struct { char *data; size_t size; } Buffer;`.
`data` is the byte content of the current allocation, `size` the accumulated
length (the allocation is one byte longer than `size` after any append). -/
structure Buffer where
  data : List Nat
  size : Nat
deriving DecidableEq

/-- C strlen on a byte sequence: the number of bytes before the first zero. -/
def strlen (s : List Nat) : Nat := (s.takeWhile (fun b => b != 0)).length

/-- curl_shim.c lines 55-65, `write_cb`: the write callback handed to libcurl.
`chunk` is the `size * nmemb` bytes at `ptr`; `allocOk` is whether the
realloc to `mem->size + realsize + 1` bytes succeeds.  On success the chunk is
copied right after the existing content, a zero terminator is written past it
(not counted in size), and the chunk length is returned; on realloc failure
the callback returns 0 with `mem` untouched (line 59 returns before any
mutation, and a failed realloc leaves the old block valid). -/
def write_cb (allocOk : Bool) (chunk : List Nat) (mem : Buffer) : Buffer × Nat :=
  if allocOk then
    (⟨mem.data.take mem.size ++ chunk ++ [0], mem.size + chunk.length⟩, chunk.length)
  else
    (mem, 0)

/-- The sequence of write-callback invocations libcurl performs during
curl_easy_perform: each element is (that call's realloc outcome, the chunk).
Returns the final buffer and the list of values the callback returned. -/
def runSink : List (Bool × List Nat) → Buffer → Buffer × List Nat
  | [], mem => (mem, [])
  | (ok, c) :: rest, mem =>
    let r := write_cb ok c mem
    let t := runSink rest r.1
    (t.1, r.2 :: t.2)

/-- Resource-lifecycle calls observable in curl_shim_simple_request. -/
inductive Event where
  | easyInit
  | mallocBuf
  | configEv
  | performEv
  | freeBuf
  | slistFree
  | easyCleanup
deriving DecidableEq

/-- What curl_easy_perform does on this call: the CURLcode it returns, the
chunks it feeds to the write callback (with each realloc outcome), and the
HTTP status code the exchange produced (readable via curl_easy_getinfo). -/
structure PerformOracle where
  code : Nat
  chunks : List (Bool × List Nat)
  status : Nat
deriving DecidableEq

/-- The observable outcome of one curl_shim_simple_request call.
`out` is `some (bytes, len)` when the call wrote `*response`/`*response_len`,
`none` when it left both out-parameters untouched.  `postFields` and
`postFieldSize` record what was configured as CURLOPT_POSTFIELDS and
CURLOPT_POSTFIELDSIZE.  `initialBuf` records the accumulator state right after
lines 71-73.  `events` is the trace of lifecycle calls, in order. -/
structure ExecResult where
  ret : Nat
  out : Option (List Nat × Nat)
  events : List Event
  configuredUrl : Option (List Nat)
  configuredMethod : Option (List Nat)
  postFields : Option (List Nat)
  postFieldSize : Option Nat
  headerAttached : Bool
  initialBuf : Option Buffer
deriving DecidableEq

/-- curl_shim.c lines 71-73: `buf.data = malloc(1); buf.size = 0;` —
a fresh one-byte allocation holding one uninitialized byte, size 0. -/
def initBuffer (junk : Nat) : Buffer := ⟨[junk], 0⟩

/-- curl_shim.c lines 67-100, `curl_shim_simple_request`.
`initOk` is whether `curl_easy_init()` returns a handle (line 68);
`headersNonNull` is whether the `headers` argument is non-null (line 77);
`payload` is `none` when the `payload` argument is null, else the caller's
byte sequence (line 78); `po` describes what `curl_easy_perform` does
(line 91); `junk` is the uninitialized byte of the malloc(1) block.
Lines 75-89 configure the handle (URL, CUSTOMREQUEST method, optional
HTTPHEADER, optional POSTFIELDS with POSTFIELDSIZE = strlen(payload), the
write callback, NOSIGNAL, HTTP/1.1, SSL verification).  Line 92: on
CURLE_OK the buffer and its size are stored through the out-parameters;
otherwise (line 96) the buffer is freed and the out-parameters are left
alone.  Line 98 releases the handle; line 99 returns the CURLcode.
No path calls curl_slist_free_all. -/
def curl_shim_simple_request (initOk : Bool) (url method : List Nat)
    (payload : Option (List Nat)) (headersNonNull : Bool)
    (po : PerformOracle) (junk : Nat) : ExecResult :=
  if initOk then
    let buf := initBuffer junk
    let finalBuf := (runSink po.chunks buf).1
    if po.code = CURLE_OK then
      { ret := CURLE_OK
        out := some (finalBuf.data, finalBuf.size)
        events := [.easyInit, .mallocBuf, .configEv, .performEv, .easyCleanup]
        configuredUrl := some url
        configuredMethod := some method
        postFields := payload
        postFieldSize := payload.map strlen
        headerAttached := headersNonNull
        initialBuf := some buf }
    else
      { ret := po.code
        out := none
        events := [.easyInit, .mallocBuf, .configEv, .performEv, .freeBuf, .easyCleanup]
        configuredUrl := some url
        configuredMethod := some method
        postFields := payload
        postFieldSize := payload.map strlen
        headerAttached := headersNonNull
        initialBuf := some buf }
  else
    { ret := CURLE_FAILED_INIT
      out := none
      events := []
      configuredUrl := none
      configuredMethod := none
      postFields := none
      postFieldSize := none
      headerAttached := false
      initialBuf := none }

/-- The bytes the engine transmits as the request body: libcurl sends exactly
CURLOPT_POSTFIELDSIZE bytes starting at CURLOPT_POSTFIELDS. -/
def transmittedBody (r : ExecResult) : Option (List Nat) :=
  match r.postFields, r.postFieldSize with
  | some p, some n => some (p.take n)
  | _, _ => none

/-- curl_shim.c lines 34-36, `curl_shim_getinfo_long`: a pure pass-through of
`curl_easy_getinfo(handle, info, value)`.  The engine is the oracle: it
returns `engineCode` and stores `engineVal` (for CURLINFO_RESPONSE_CODE, the
HTTP status) through the out-parameter. -/
def curl_shim_getinfo_long (engineCode : Nat) (engineVal : Int) : Nat × Int :=
  (engineCode, engineVal)

/-- curl_shim.c lines 42-44, `curl_shim_slist_free_all`: one call to
`curl_slist_free_all(list)`, i.e. exactly one header-list release event. -/
def curl_shim_slist_free_all_events : List Event := [Event.slistFree]

end CurlShim

namespace CurlShim

/-- One successful write_cb call, spelled out. -/
lemma write_cb_true_eq (c : List Nat) (mem : Buffer) :
    write_cb true c mem
      = (⟨mem.data.take mem.size ++ c ++ [0], mem.size + c.length⟩, c.length) := rfl

/-- On a well-formed buffer (size within the allocation), the retained
content has exactly `size` bytes. -/
lemma take_length_of_wf (mem : Buffer) (h : mem.size ≤ mem.data.length) :
    (mem.data.take mem.size).length = mem.size := by
  simp [List.length_take, Nat.min_eq_left h]

/-- Running the sink over chunks whose reallocations all succeed: the final
size is the starting size plus the chunk lengths, the content is the old
content followed by the chunks in order, every call returned its chunk
length, the buffer stays well-formed, and after at least one call the byte
right past the content is the zero terminator. -/
lemma runSink_all_ok (cs : List (List Nat)) :
    ∀ mem : Buffer, mem.size ≤ mem.data.length →
      ((runSink (cs.map fun d => (true, d)) mem).1.size
          = mem.size + (cs.map List.length).sum)
      ∧ ((runSink (cs.map fun d => (true, d)) mem).1.data.take
            ((runSink (cs.map fun d => (true, d)) mem).1.size)
          = mem.data.take mem.size ++ cs.flatten)
      ∧ ((runSink (cs.map fun d => (true, d)) mem).2 = cs.map List.length)
      ∧ ((runSink (cs.map fun d => (true, d)) mem).1.size
          ≤ (runSink (cs.map fun d => (true, d)) mem).1.data.length)
      ∧ (cs ≠ [] →
          (runSink (cs.map fun d => (true, d)) mem).1.data
            = (runSink (cs.map fun d => (true, d)) mem).1.data.take
                ((runSink (cs.map fun d => (true, d)) mem).1.size) ++ [0]) := by
  induction cs with
  | nil =>
    intro mem h
    refine ⟨by simp [runSink], by simp [runSink], by simp [runSink],
      by simpa [runSink] using h, fun hne => absurd rfl hne⟩
  | cons c rest ih =>
    intro mem h
    have hA : (mem.data.take mem.size).length = mem.size := take_length_of_wf mem h
    have hm'data : (write_cb true c mem).1.data
        = mem.data.take mem.size ++ c ++ [0] := rfl
    have hm'size : (write_cb true c mem).1.size = mem.size + c.length := rfl
    have hwf' : (write_cb true c mem).1.size ≤ (write_cb true c mem).1.data.length := by
      rw [hm'data, hm'size]
      simp [List.length_append, hA]
    have htake' : (write_cb true c mem).1.data.take ((write_cb true c mem).1.size)
        = mem.data.take mem.size ++ c := by
      rw [hm'data, hm'size]
      exact List.take_left' (by simp [hA])
    have step : runSink ((c :: rest).map fun d => (true, d)) mem
        = ((runSink (rest.map fun d => (true, d)) (write_cb true c mem).1).1,
           (write_cb true c mem).2
             :: (runSink (rest.map fun d => (true, d)) (write_cb true c mem).1).2) := by
      simp [runSink]
    obtain ⟨ih1, ih2, ih3, ih4, ih5⟩ := ih (write_cb true c mem).1 hwf'
    rw [step]
    refine ⟨?_, ?_, ?_, ih4, ?_⟩
    · rw [ih1, hm'size]
      simp [Nat.add_assoc]
    · rw [ih2, htake']
      simp [List.append_assoc]
    · rw [ih3]
      rfl
    · intro _
      cases rest with
      | nil =>
        simp only [List.map_nil, runSink]
        rw [htake', hm'data]
      | cons d ds =>
        exact ih5 (by simp)

end CurlShim

namespace CurlShim

/-- The init-failure path of curl_shim_simple_request (line 69), spelled out. -/
lemma simple_request_init_failed (url method : List Nat) (payload : Option (List Nat))
    (hn : Bool) (po : PerformOracle) (junk : Nat) :
    curl_shim_simple_request false url method payload hn po junk
      = { ret := CURLE_FAILED_INIT, out := none, events := [], configuredUrl := none,
          configuredMethod := none, postFields := none, postFieldSize := none,
          headerAttached := false, initialBuf := none } := rfl

/-- The success path of curl_shim_simple_request (lines 92-94), spelled out. -/
lemma simple_request_perform_ok (url method : List Nat) (payload : Option (List Nat))
    (hn : Bool) (po : PerformOracle) (junk : Nat) (hc : po.code = CURLE_OK) :
    curl_shim_simple_request true url method payload hn po junk
      = { ret := CURLE_OK
          out := some ((runSink po.chunks (initBuffer junk)).1.data,
                       (runSink po.chunks (initBuffer junk)).1.size)
          events := [.easyInit, .mallocBuf, .configEv, .performEv, .easyCleanup]
          configuredUrl := some url
          configuredMethod := some method
          postFields := payload
          postFieldSize := payload.map strlen
          headerAttached := hn
          initialBuf := some (initBuffer junk) } := by
  unfold curl_shim_simple_request
  simp [hc]

/-- The transport-failure path of curl_shim_simple_request (lines 95-97),
spelled out. -/
lemma simple_request_perform_err (url method : List Nat) (payload : Option (List Nat))
    (hn : Bool) (po : PerformOracle) (junk : Nat) (hc : po.code ≠ CURLE_OK) :
    curl_shim_simple_request true url method payload hn po junk
      = { ret := po.code
          out := none
          events := [.easyInit, .mallocBuf, .configEv, .performEv, .freeBuf, .easyCleanup]
          configuredUrl := some url
          configuredMethod := some method
          postFields := payload
          postFieldSize := payload.map strlen
          headerAttached := hn
          initialBuf := some (initBuffer junk) } := by
  unfold curl_shim_simple_request
  simp [hc]

/-- Claim C8: right after handle acquisition succeeds, the accumulator is
initialized (lines 71-73) as an empty buffer: recorded length 0, backed by a
valid one-byte allocation, hence a non-null block. -/
theorem accumulator_starts_empty_valid (url method : List Nat)
    (payload : Option (List Nat)) (hn : Bool) (po : PerformOracle) (junk : Nat) :
    ((curl_shim_simple_request true url method payload hn po junk).initialBuf
        = some (initBuffer junk))
    ∧ ((initBuffer junk).size = 0)
    ∧ ((initBuffer junk).data.length = 1)
    ∧ ((initBuffer junk).data ≠ []) := by
  refine ⟨?_, rfl, rfl, by simp [initBuffer]⟩
  by_cases hc : po.code = CURLE_OK
  · rw [simple_request_perform_ok _ _ _ _ _ _ hc]
  · rw [simple_request_perform_err _ _ _ _ _ _ hc]

/-- Claim C9: when handle acquisition fails, the call returns
CURLE_FAILED_INIT immediately: no buffer is allocated, nothing is
configured, perform never runs, nothing is released, and the caller's
out-parameters are untouched (the event trace is empty and no accumulator
state ever exists). -/
theorem init_failure_immediate_return (url method : List Nat)
    (payload : Option (List Nat)) (hn : Bool) (po : PerformOracle) (junk : Nat) :
    ((curl_shim_simple_request false url method payload hn po junk).ret
        = CURLE_FAILED_INIT)
    ∧ ((curl_shim_simple_request false url method payload hn po junk).out = none)
    ∧ ((curl_shim_simple_request false url method payload hn po junk).events = [])
    ∧ ((curl_shim_simple_request false url method payload hn po junk).initialBuf
        = none) :=
  ⟨rfl, rfl, rfl, rfl⟩

/-- Claim C10: a successful call during which the sink was never invoked
returns length 0 and the untouched initial one-byte allocation (still
holding the uninitialized byte, no terminator written), while one sink
invocation suffices to establish the trailing-terminator layout. -/
theorem empty_response_initial_buffer (url method : List Nat)
    (payload : Option (List Nat)) (hn : Bool) (status junk : Nat) :
    ((curl_shim_simple_request true url method payload hn
        ⟨CURLE_OK, [], status⟩ junk).out = some ([junk], 0))
    ∧ (∀ c : List Nat,
        (write_cb true c (initBuffer junk)).1.data
          = (write_cb true c (initBuffer junk)).1.data.take
              ((write_cb true c (initBuffer junk)).1.size) ++ [0]) := by
  constructor
  · rw [simple_request_perform_ok _ _ _ _ _ _ rfl]
    rfl
  · intro c
    have h1 : (write_cb true c (initBuffer junk)).1.data = c ++ [0] := by
      simp [write_cb, initBuffer]
    have h2 : (write_cb true c (initBuffer junk)).1.size = c.length := by
      simp [write_cb, initBuffer]
    rw [h1, h2, List.take_left' rfl]

end CurlShim

namespace CurlShim

/-- Taking `strlen p` bytes of `p` is exactly the prefix before the first
zero byte. -/
lemma take_strlen (p : List Nat) : p.take (strlen p) = p.takeWhile (fun b => b != 0) := by
  induction p with
  | nil => rfl
  | cons b bs ih =>
    cases hb : (b != 0) with
    | true =>
      have hs : strlen (b :: bs) = strlen bs + 1 := by
        simp [strlen, List.takeWhile_cons, hb]
      have ht : (b :: bs).takeWhile (fun x => x != 0)
          = b :: bs.takeWhile (fun x => x != 0) := by
        simp [List.takeWhile_cons, hb]
      rw [hs, List.take_succ_cons, ht, ih]
    | false =>
      have hs : strlen (b :: bs) = 0 := by
        simp [strlen, List.takeWhile_cons, hb]
      have ht : (b :: bs).takeWhile (fun x => x != 0) = [] := by
        simp [List.takeWhile_cons, hb]
      rw [hs, List.take_zero, ht]

/-- Claim C1 is false on the code: curl_shim_simple_request configures
CURLOPT_POSTFIELDSIZE as strlen(payload) (line 80), so a body holding the
bytes 65, 0, 66 is transmitted as just the byte 65, not in full. -/
theorem body_full_length_cex :
    ¬ (transmittedBody (curl_shim_simple_request true [104] [80] (some [65, 0, 66])
          false ⟨0, [], 200⟩ 7) = some [65, 0, 66]) := by decide

/-- Claim C1 (amended): the byte length attached to the body is inferred
from a null-terminator scan — CURLOPT_POSTFIELDSIZE is set to
strlen(payload) — so the transmitted body is the prefix of the payload up
to (excluding) its first zero byte; a body containing an embedded zero byte
is truncated there, not transmitted in full. -/
theorem body_transmitted_strlen_truncated (url method p : List Nat)
    (hn : Bool) (po : PerformOracle) (junk : Nat) :
    (transmittedBody (curl_shim_simple_request true url method (some p) hn po junk)
        = some (p.takeWhile (fun b => b != 0)))
    ∧ ((curl_shim_simple_request true url method (some p) hn po junk).postFieldSize
        = some (strlen p)) := by
  by_cases hc : po.code = CURLE_OK
  · rw [simple_request_perform_ok _ _ _ _ _ _ hc]
    exact ⟨by simp [transmittedBody, take_strlen], rfl⟩
  · rw [simple_request_perform_err _ _ _ _ _ _ hc]
    exact ⟨by simp [transmittedBody, take_strlen], rfl⟩

/-- Claim C2 is false on the code: a call given a non-empty header list
performs zero header-list releases before returning, not exactly one —
no path of curl_shim_simple_request calls curl_slist_free_all. -/
theorem header_list_release_once_cex :
    ¬ ((curl_shim_simple_request true [104] [80] none true
          ⟨0, [], 200⟩ 7).events.count Event.slistFree = 1) := by decide

/-- Claim C2 (amended): curl_shim_simple_request never releases the header
list on any path (zero release events on every outcome); releasing it is
left to the caller through the separate curl_shim_slist_free_all entry
point, which performs exactly one release per call. -/
theorem header_list_never_released_in_call (initOk : Bool) (url method : List Nat)
    (payload : Option (List Nat)) (po : PerformOracle) (junk : Nat) :
    ((curl_shim_simple_request initOk url method payload true po junk).events.count
        Event.slistFree = 0)
    ∧ (curl_shim_slist_free_all_events.count Event.slistFree = 1) := by
  refine ⟨?_, rfl⟩
  cases initOk with
  | false => rfl
  | true =>
    by_cases hc : po.code = CURLE_OK
    · rw [simple_request_perform_ok _ _ _ _ _ _ hc]
      rfl
    · rw [simple_request_perform_err _ _ _ _ _ _ hc]
      rfl

/-- Claim C3: feeding any finite chunk sequence to the freshly initialized
accumulator with every reallocation succeeding: the final length is the sum
of the chunk lengths, the first length bytes of the final buffer are the
concatenation of the chunks in call order, every sink call returned its
chunk length, and after each sink call the single zero terminator byte sits
immediately past the accumulated content, not counted in the length. -/
theorem sink_accumulates_concatenation (chunks : List (List Nat)) (junk : Nat) :
    ((runSink (chunks.map fun d => (true, d)) (initBuffer junk)).1.size
        = (chunks.map List.length).sum)
    ∧ ((runSink (chunks.map fun d => (true, d)) (initBuffer junk)).1.data.take
          ((runSink (chunks.map fun d => (true, d)) (initBuffer junk)).1.size)
        = chunks.flatten)
    ∧ ((runSink (chunks.map fun d => (true, d)) (initBuffer junk)).2
        = chunks.map List.length)
    ∧ (∀ i, i < chunks.length →
        (runSink ((chunks.take (i + 1)).map fun d => (true, d)) (initBuffer junk)).1.data
          = (runSink ((chunks.take (i + 1)).map fun d => (true, d))
                (initBuffer junk)).1.data.take
              ((runSink ((chunks.take (i + 1)).map fun d => (true, d))
                  (initBuffer junk)).1.size)
            ++ [0]) := by
  have h0 : (initBuffer junk).size ≤ (initBuffer junk).data.length := by
    simp [initBuffer]
  obtain ⟨h1, h2, h3, -, -⟩ := runSink_all_ok chunks (initBuffer junk) h0
  refine ⟨by simpa [initBuffer] using h1, by simpa [initBuffer] using h2, h3, ?_⟩
  intro i hi
  obtain ⟨-, -, -, -, h5⟩ := runSink_all_ok (chunks.take (i + 1)) (initBuffer junk) h0
  apply h5
  intro hnil
  have hlen : (chunks.take (i + 1)).length = 0 := by rw [hnil]; rfl
  rw [List.length_take] at hlen
  omega

/-- Claim C4: when curl_easy_perform fails, the accumulated buffer is freed
internally exactly once, the caller's response out-parameters stay
untouched, and the call returns the engine's error code. -/
theorem perform_failure_discards_buffer (url method : List Nat)
    (payload : Option (List Nat)) (hn : Bool) (po : PerformOracle) (junk : Nat)
    (h : po.code ≠ CURLE_OK) :
    ((curl_shim_simple_request true url method payload hn po junk).out = none)
    ∧ ((curl_shim_simple_request true url method payload hn po junk).ret = po.code)
    ∧ ((curl_shim_simple_request true url method payload hn po junk).events.count
        Event.freeBuf = 1) := by
  rw [simple_request_perform_err _ _ _ _ _ _ h]
  exact ⟨rfl, rfl, rfl⟩

/-- Witness for claim C4 at a concrete transport failure (CURLcode 6,
could not resolve host) after one delivered chunk. -/
theorem perform_failure_discards_buffer_witness :
    ((curl_shim_simple_request true [104] [80] none false
        ⟨6, [(true, [72])], 0⟩ 7).out = none)
    ∧ ((curl_shim_simple_request true [104] [80] none false
        ⟨6, [(true, [72])], 0⟩ 7).ret = 6)
    ∧ ((curl_shim_simple_request true [104] [80] none false
        ⟨6, [(true, [72])], 0⟩ 7).events.count Event.freeBuf = 1) :=
  perform_failure_discards_buffer [104] [80] none false ⟨6, [(true, [72])], 0⟩ 7
    (by decide)

/-- Claim C5: when curl_easy_perform succeeds, the call returns CURLE_OK
and hands the accumulated body to the caller whatever the HTTP status code
of the exchange was; the result is independent of the status, which is
obtainable separately through curl_shim_getinfo_long. -/
theorem success_regardless_of_status (url method : List Nat)
    (payload : Option (List Nat)) (hn : Bool) (chunks : List (Bool × List Nat))
    (status status' junk : Nat) :
    ((curl_shim_simple_request true url method payload hn
        ⟨CURLE_OK, chunks, status⟩ junk).ret = CURLE_OK)
    ∧ ((curl_shim_simple_request true url method payload hn
        ⟨CURLE_OK, chunks, status⟩ junk).out
          = some ((runSink chunks (initBuffer junk)).1.data,
                  (runSink chunks (initBuffer junk)).1.size))
    ∧ (curl_shim_simple_request true url method payload hn
        ⟨CURLE_OK, chunks, status⟩ junk
          = curl_shim_simple_request true url method payload hn
              ⟨CURLE_OK, chunks, status'⟩ junk)
    ∧ (curl_shim_getinfo_long CURLE_OK (Int.ofNat status)
        = (CURLE_OK, Int.ofNat status)) := by
  rw [simple_request_perform_ok _ _ _ _ _ _ rfl, simple_request_perform_ok _ _ _ _ _ _ rfl]
  exact ⟨rfl, rfl, rfl, rfl⟩

/-- Claim C6: when the realloc fails, the sink returns 0 without raising
anything and leaves the accumulator exactly as it was (the old allocation
is still the buffer, the recorded length unchanged); for a non-empty chunk
the returned count falls short of the chunk length, which is all the engine
sees of the failure. -/
theorem sink_alloc_failure_returns_zero (chunk : List Nat) (mem : Buffer) :
    (write_cb false chunk mem = (mem, 0))
    ∧ (chunk ≠ [] → (write_cb false chunk mem).2 < chunk.length) := by
  refine ⟨rfl, fun h => ?_⟩
  have hpos : 0 < chunk.length := List.length_pos.mpr h
  simpa [write_cb] using hpos

/-- Claim C7: a zero-length chunk never changes the recorded length and
never fails: whatever the realloc outcome, the sink returns 0 — the
accepted count equal to the chunk length — and the accumulated content is
identical. -/
theorem sink_zero_length_chunk_noop (allocOk : Bool) (mem : Buffer)
    (h : mem.size ≤ mem.data.length) :
    ((write_cb allocOk [] mem).2 = 0)
    ∧ ((write_cb allocOk [] mem).2 = ([] : List Nat).length)
    ∧ ((write_cb allocOk [] mem).1.size = mem.size)
    ∧ ((write_cb allocOk [] mem).1.data.take ((write_cb allocOk [] mem).1.size)
        = mem.data.take mem.size) := by
  cases allocOk with
  | false => exact ⟨rfl, rfl, rfl, rfl⟩
  | true =>
    refine ⟨rfl, rfl, rfl, ?_⟩
    have hA : (mem.data.take mem.size).length = mem.size := take_length_of_wf mem h
    have h1 : (write_cb true [] mem).1.data = mem.data.take mem.size ++ [0] := by
      simp [write_cb]
    have h2 : (write_cb true [] mem).1.size = mem.size := rfl
    rw [h1, h2, List.take_left' hA]

/-- Witness for claim C7 at a concrete accumulator state holding one
content byte inside a two-byte allocation. -/
theorem sink_zero_length_chunk_noop_witness :
    ((write_cb true [] ⟨[5, 0], 1⟩).2 = 0)
    ∧ ((write_cb true [] ⟨[5, 0], 1⟩).2 = ([] : List Nat).length)
    ∧ ((write_cb true [] ⟨[5, 0], 1⟩).1.size = (⟨[5, 0], 1⟩ : Buffer).size)
    ∧ ((write_cb true [] ⟨[5, 0], 1⟩).1.data.take ((write_cb true [] ⟨[5, 0], 1⟩).1.size)
        = (⟨[5, 0], 1⟩ : Buffer).data.take (⟨[5, 0], 1⟩ : Buffer).size) :=
  sink_zero_length_chunk_noop true ⟨[5, 0], 1⟩ (by decide)

end CurlShim
